import Mathlib

set_option maxRecDepth 20000

/-!
Verification of the PNG positive-prompt extractor.

The development embeds the two core source files:
  * `src/extractPositivePrompt.ts` — the heuristic prompt selector
    (`normalizePrompt`, `isPromptWrapperJson`, `pickBestString`,
    `extractFromRawWorkflow`, `extractFromMetadataObject`,
    `extractPositivePromptFromTextBlobs`);
  * `src/pngTextChunks.ts` — the PNG chunk reader and text-payload decoders
    (`extractPngTextChunks`, `parse_tEXt`, `parse_zTXt`, `parse_iTXt`,
    `inflateZlib`).

JavaScript dynamic values coming out of `JSON.parse` are modelled by the
inductive type `Json`; JavaScript truthiness, property access (including
array index access by canonical numeric string), `Object.keys` ordering
(integer-like keys ascending first) and `String(...)` coercion are modelled
explicitly.  Host primitives (`JSON.parse`, `DecompressionStream`,
`TextDecoder`) are modelled: `JSON.parse` as an executable parser of the
JSON grammar, the decompression and UTF-8 decoding streams as parameters
bundled in `Externals`, since their byte-level behaviour is outside the
repository.
-/

namespace PngPrompt

/-- A JSON value as produced by `JSON.parse`.  Numbers keep their source
lexeme: no code in the repository ever observes a numeric value, only
`typeof` checks and `String(...)` coercion, so the lexeme is sufficient. -/
inductive Json where
  | null
  | bool (b : Bool)
  | num (lexeme : String)
  | str (s : String)
  | arr (elems : List Json)
  | obj (fields : List (String × Json))

/-- JS truthiness combined with `typeof x === "object"`: JSON objects and
arrays pass, `null` is falsy, primitives have a different `typeof`. -/
def Json.isTruthyObject : Json → Bool
  | .obj _ => true
  | .arr _ => true
  | _ => false

/-! ### JS string primitives, modelled on character lists.
`String.prototype.trim`, `replace` with a global pattern, substring
search, `startsWith`/`endsWith` and ASCII case folding.  (Case folding is
modelled on ASCII: the only search pattern is the ASCII word
`"positive"`, which no non-ASCII character case-folds into.) -/

/-- The ECMAScript `WhiteSpace` and `LineTerminator` code points that
`String.prototype.trim` removes. -/
def jsWhitespaceChar (c : Char) : Bool :=
  c.toNat ∈ ([9, 10, 11, 12, 13, 32, 160, 5760, 8192, 8193, 8194, 8195,
    8196, 8197, 8198, 8199, 8200, 8201, 8202, 8232, 8233, 8239, 8287,
    12288, 65279] : List Nat)

/-- JS `s.trim()`. -/
def jsTrim (s : String) : String :=
  String.mk
    (((s.toList.dropWhile jsWhitespaceChar).reverse.dropWhile
      jsWhitespaceChar).reverse)

/-- JS `s.startsWith(pre)`. -/
def jsStartsWith (s pre : String) : Bool :=
  pre.toList.isPrefixOf s.toList

/-- JS `s.endsWith(suf)`. -/
def jsEndsWith (s suf : String) : Bool :=
  suf.toList.reverse.isPrefixOf s.toList.reverse

/-- One pass of `s.replace(/pat/g, repl)`: non-overlapping, left to right.
The fuel is the input length; each step consumes at least one character,
so the fuel never runs out. -/
def replaceList (pat repl : List Char) : Nat → List Char → List Char
  | _, [] => []
  | 0, l => l
  | fuel + 1, c :: cs =>
    if pat.isPrefixOf (c :: cs) then
      repl ++ replaceList pat repl fuel ((c :: cs).drop pat.length)
    else c :: replaceList pat repl fuel cs

/-- JS `s.replace(pat-as-global-regex, repl)` for a literal pattern. -/
def jsReplaceAll (s pat repl : String) : String :=
  String.mk (replaceList pat.toList repl.toList s.toList.length s.toList)

/-- ASCII lower-casing of one character (see the header note). -/
def asciiLower (c : Char) : Char :=
  if 'A' ≤ c ∧ c ≤ 'Z' then Char.ofNat (c.toNat + 32) else c

/-- Substring occurrence test on character lists. -/
def containsList (pat : List Char) : List Char → Bool
  | [] => pat.isEmpty
  | c :: cs => pat.isPrefixOf (c :: cs) || containsList pat cs

/-- The numeric value of a decimal digit string. -/
def digitsToNat (cs : List Char) : Nat :=
  cs.foldl (fun acc c => acc * 10 + (c.toNat - 48)) 0

/-- A canonical JS array-index string: non-empty, all decimal digits, no
leading zero (except `"0"` itself), value below 2^32 - 1. -/
def arrayIndex? (name : String) : Option Nat :=
  if name ≠ "" && name.toList.all Char.isDigit && (name = "0" || !jsStartsWith name "0") then
    let n := digitsToNat name.toList
    if n < 4294967295 then some n else none
  else none

/-- JS property access `v[name]` for the property names this code uses:
object field lookup, array index access by canonical numeric string;
`undefined` (`none`) on primitives.  (The repository never accesses
`length` or a numeric index on a string, so string properties need no
model.) -/
def Json.getField : Json → String → Option Json
  | .obj fields, name => (fields.find? (fun kv => kv.1 = name)).map Prod.snd
  | .arr xs, name =>
    match arrayIndex? name with
    | some i => xs.get? i
    | none => none
  | _, _ => none

/-- Insertion of index-like keys in ascending numeric order (JS property
ordering). -/
def insertIdxKey (n : String) : List String → List String
  | [] => [n]
  | m :: ms =>
    if (arrayIndex? n).getD 0 ≤ (arrayIndex? m).getD 0 then n :: m :: ms
    else m :: insertIdxKey n ms

def sortIdxKeys : List String → List String
  | [] => []
  | n :: ns => insertIdxKey n (sortIdxKeys ns)

/-- JS `Object.keys`: for an object, integer-like keys in ascending numeric
order first, then the remaining keys in insertion order; for an array, the
index strings `"0" .. "n-1"`; empty for primitives. -/
def Json.keys : Json → List String
  | .obj fields =>
    let names := fields.map Prod.fst
    sortIdxKeys (names.filter (fun n => (arrayIndex? n).isSome)) ++
      names.filter (fun n => (arrayIndex? n).isNone)
  | .arr xs => (List.range xs.length).map (fun i => Nat.repr i)
  | _ => []

mutual
/-- JS `String(...)` coercion on JSON values.  Numbers render as their
lexeme (never observably different here: the result only feeds substring
tests against `"positive"`). -/
def jsToString : Json → String
  | .null => "null"
  | .bool true => "true"
  | .bool false => "false"
  | .num lexeme => lexeme
  | .str s => s
  | .obj _ => "[object Object]"
  | .arr xs => jsToStringList xs

/-- JS `Array.prototype.toString`: elements joined by commas, `null` elements
rendered empty. -/
def jsToStringList : List Json → String
  | [] => ""
  | [x] => jsToStringElem x
  | x :: y :: xs => jsToStringElem x ++ "," ++ jsToStringList (y :: xs)

def jsToStringElem : Json → String
  | .null => ""
  | v => jsToString v
end

/-! ### The external `JSON.parse` primitive, modelled as an executable
parser of the JSON grammar (RFC 8259, as `JSON.parse` implements it:
strict escapes, no trailing garbage, duplicate object keys keep their
first position with the last value). -/

def jsonWs (c : Char) : Bool :=
  c = ' ' || c = '\t' || c = '\n' || c = '\r'

def skipWs : List Char → List Char
  | [] => []
  | c :: cs => if jsonWs c then skipWs cs else c :: cs

def hexVal? (c : Char) : Option Nat :=
  if '0' ≤ c ∧ c ≤ '9' then some (c.toNat - '0'.toNat)
  else if 'a' ≤ c ∧ c ≤ 'f' then some (c.toNat - 'a'.toNat + 10)
  else if 'A' ≤ c ∧ c ≤ 'F' then some (c.toNat - 'A'.toNat + 10)
  else none

def escapeChar? : Char → List Char → Option (Char × List Char)
  | '"', rest => some ('"', rest)
  | '\\', rest => some ('\\', rest)
  | '/', rest => some ('/', rest)
  | 'b', rest => some (Char.ofNat 8, rest)
  | 'f', rest => some (Char.ofNat 12, rest)
  | 'n', rest => some ('\n', rest)
  | 'r', rest => some ('\r', rest)
  | 't', rest => some ('\t', rest)
  | 'u', a :: b :: c :: d :: rest =>
    match hexVal? a, hexVal? b, hexVal? c, hexVal? d with
    | some ha, some hb, some hc, some hd =>
      some (Char.ofNat (((ha * 16 + hb) * 16 + hc) * 16 + hd), rest)
    | _, _, _, _ => none
  | _, _ => none

/-- String body after the opening quote; fueled by input length. -/
def parseStringBody : Nat → List Char → Option (String × List Char)
  | 0, _ => none
  | _, [] => none
  | fuel + 1, c :: rest =>
    if c = '"' then some ("", rest)
    else if c = '\\' then
      match rest with
      | [] => none
      | e :: rest2 =>
        match escapeChar? e rest2 with
        | some (ch, rest3) =>
          match parseStringBody fuel rest3 with
          | some (s, r) => some (ch.toString ++ s, r)
          | none => none
        | none => none
    else if c.toNat < 32 then none
    else
      match parseStringBody fuel rest with
      | some (s, r) => some (c.toString ++ s, r)
      | none => none

def spanDigits (cs : List Char) : List Char × List Char :=
  cs.span Char.isDigit

def parseFracExp (acc : List Char) (cs : List Char) : Option (String × List Char) :=
  let (acc1, cs1) :=
    match cs with
    | '.' :: r =>
      match spanDigits r with
      | ([], _) => (none, cs)
      | (ds, rest) => (some (acc ++ '.' :: ds), rest)
    | _ => (some acc, cs)
  match acc1 with
  | none => none
  | some acc1 =>
    match cs1 with
    | e :: r =>
      if e = 'e' ∨ e = 'E' then
        let (sgn, r2) :=
          match r with
          | '+' :: r2 => (['+'], r2)
          | '-' :: r2 => (['-'], r2)
          | _ => ([], r)
        match spanDigits r2 with
        | ([], _) => none
        | (ds, rest) => some (String.mk (acc1 ++ e :: sgn ++ ds), rest)
      else some (String.mk acc1, cs1)
    | [] => some (String.mk acc1, cs1)

/-- A JSON number lexeme: optional minus, integer part (no leading zero),
optional fraction and exponent. -/
def parseNumber (cs : List Char) : Option (String × List Char) :=
  let (neg, cs1) := match cs with | '-' :: r => (['-'], r) | _ => (([] : List Char), cs)
  match cs1 with
  | c :: r =>
    if c = '0' then parseFracExp (neg ++ ['0']) r
    else if c.isDigit then
      let (ds, rest) := spanDigits r
      parseFracExp (neg ++ c :: ds) rest
    else none
  | [] => none

/-- Duplicate keys in a JSON object text: the key keeps its first position
but takes the last value (JS semantics). -/
def insertPair (fields : List (String × Json)) (k : String) (v : Json) :
    List (String × Json) :=
  if fields.any (fun kv => kv.1 = k) then
    fields.map (fun kv => if kv.1 = k then (k, v) else kv)
  else fields ++ [(k, v)]

mutual
def parseValue : Nat → List Char → Option (Json × List Char)
  | 0, _ => none
  | fuel + 1, cs =>
    match skipWs cs with
    | [] => none
    | '{' :: rest =>
      (match skipWs rest with
       | '}' :: rest2 => some (Json.obj [], rest2)
       | _ => parseObjectBody fuel (skipWs rest) [])
    | '[' :: rest =>
      (match skipWs rest with
       | ']' :: rest2 => some (Json.arr [], rest2)
       | _ => parseArrayBody fuel (skipWs rest) [])
    | '"' :: rest =>
      (match parseStringBody (rest.length + 1) rest with
       | some (s, r) => some (Json.str s, r)
       | none => none)
    | 't' :: 'r' :: 'u' :: 'e' :: rest => some (Json.bool true, rest)
    | 'f' :: 'a' :: 'l' :: 's' :: 'e' :: rest => some (Json.bool false, rest)
    | 'n' :: 'u' :: 'l' :: 'l' :: rest => some (Json.null, rest)
    | cs' =>
      (match parseNumber cs' with
       | some (lexeme, r) => some (Json.num lexeme, r)
       | none => none)

/-- One key-value pair, then a comma (continue) or a closing brace (finish). -/
def parseObjectBody (fuel : Nat) (cs : List Char) (fields : List (String × Json)) :
    Option (Json × List Char) :=
  match fuel with
  | 0 => none
  | fuel + 1 =>
    match cs with
    | '"' :: rest =>
      (match parseStringBody (rest.length + 1) rest with
       | some (k, r) =>
         (match skipWs r with
          | ':' :: r2 =>
            (match parseValue fuel r2 with
             | some (v, r3) =>
               let fields2 := insertPair fields k v
               (match skipWs r3 with
                | ',' :: r4 => parseObjectBody fuel (skipWs r4) fields2
                | '}' :: r4 => some (Json.obj fields2, r4)
                | _ => none)
             | none => none)
          | _ => none)
       | none => none)
    | _ => none

/-- One array element, then `,` (continue) or `]` (finish). -/
def parseArrayBody (fuel : Nat) (cs : List Char) (elems : List Json) :
    Option (Json × List Char) :=
  match fuel with
  | 0 => none
  | fuel + 1 =>
    match parseValue fuel cs with
    | some (v, r) =>
      (match skipWs r with
       | ',' :: r2 => parseArrayBody fuel r2 (elems ++ [v])
       | ']' :: r2 => some (Json.arr (elems ++ [v]), r2)
       | _ => none)
    | none => none
end

/-- The function `safeJsonParse(s)`: `JSON.parse` in a try/catch, `null` on any parse
error; rejects trailing non-whitespace. -/
def safeJsonParse (s : String) : Option Json :=
  let cs := s.toList
  match parseValue (cs.length + 1) cs with
  | some (v, rest) => if (skipWs rest).isEmpty then some v else none
  | none => none

/-! ### `src/extractPositivePrompt.ts` -/

/-- The function `normalizePrompt(s)`: collapse literal `\r\n` escape pairs, literal
`\n` escape pairs and real CRLF pairs into linefeeds, then trim.
`String.replace` is, like the JS global regex replace, non-overlapping
left to right. -/
def normalizePrompt (s : String) : String :=
  jsTrim (jsReplaceAll (jsReplaceAll (jsReplaceAll s "\\r\\n" "\n") "\\n" "\n") "\r\n" "\n")

/-- The predicate `isPromptWrapperJson(s)`: trimmed `s` looks like a JSON object, parses
to an object (not array/null/primitive), with exactly one key, that key is
`"prompt"`, and its value is a string. -/
def isPromptWrapperJson (s : String) : Bool :=
  let t := jsTrim s
  if !(jsStartsWith t "\x7b" && jsEndsWith t "\x7d") then false
  else
    match safeJsonParse t with
    | some (Json.obj fields) =>
      (match (Json.obj fields).keys with
       | [k] =>
         k = "prompt" &&
           (match (Json.obj fields).getField "prompt" with
            | some (Json.str _) => true
            | _ => false)
       | _ => false)
    | _ => false

/-- The first entry of maximal length of a list — what the JS
`cleaned.sort((a, b) => b.length - a.length)[0]` computes, `Array.sort`
being stable. -/
def firstMaxByLength : List String → Option String
  | [] => none
  | c :: cs =>
    match firstMaxByLength cs with
    | none => some c
    | some b => if b.length > c.length then some b else some c

/-- The function `pickBestString(candidates)`: trim all, drop empties
(`filter(Boolean)`), drop wrapper JSON, then take the longest surviving
entry (first on ties). -/
def pickBestString (candidates : List String) : Option String :=
  let cleaned :=
    ((candidates.map (fun c => jsTrim c)).filter (fun c => c ≠ "")).filter
      (fun c => !isPromptWrapperJson c)
  firstMaxByLength cleaned

/-- The regex test `/positive/i.test(s)`: case-insensitive substring
search (case folding modelled on ASCII, the only letters the pattern
contains). -/
def testPositive (s : String) : Bool :=
  containsList "positive".toList (s.toList.map asciiLower)

/-- Coalescing `x ?? ""` followed by `String(...)`: `undefined` and `null` coalesce
to the empty string. -/
def coalesceToString (v : Option Json) : String :=
  match v with
  | none => ""
  | some Json.null => ""
  | some v => jsToString v

/-- The expression `String(node.class_type ?? "")`. -/
def classTypeOf (node : Json) : String :=
  coalesceToString (node.getField "class_type")

/-- The expression `String(node._meta?.title ?? "")`: the optional chain yields
`undefined` when `_meta` is `null`/absent (and on primitives, which have
no `title` property). -/
def titleOf (node : Json) : String :=
  coalesceToString
    (match node.getField "_meta" with
     | none => none
     | some Json.null => none
     | some m => m.getField "title")

/-- The expression `node.inputs ?? \x7b\x7d`. -/
def inputsOf (node : Json) : Json :=
  match node.getField "inputs" with
  | none => Json.obj []
  | some Json.null => Json.obj []
  | some v => v

/-- The `looksPositive` test: `/positive/i` on `class_type`, `/positive/i`
on the title, or the title exactly `"Positive"`. -/
def looksPositiveNode (node : Json) : Bool :=
  testPositive (classTypeOf node) || testPositive (titleOf node) ||
    titleOf node = "Positive"

/-- The test `typeof inputs.f === "string" && inputs.f.trim().length > 0`: the
candidate contribution of one string-valued input field (the pushed
candidate is the un-trimmed string). -/
def stringFieldCandidate (inputs : Json) (field : String) : List String :=
  match inputs.getField field with
  | some (Json.str s) => if (jsTrim s).length > 0 then [s] else []
  | _ => []

/-- The candidates one node of a workflow graph contributes
(loop body of `extractFromRawWorkflow`): `inputs.positive` whenever it is
a non-blank string; `inputs.text` and `inputs.prompt` additionally when
the node looks positive. -/
def nodeCandidates (node : Json) : List String :=
  if !node.isTruthyObject then []
  else
    stringFieldCandidate (inputsOf node) "positive" ++
      (if looksPositiveNode node then
        stringFieldCandidate (inputsOf node) "text" ++
          stringFieldCandidate (inputsOf node) "prompt"
      else [])

/-- The candidate list `extractFromRawWorkflow` builds over the nodes of
an already-parsed graph, in `Object.keys` iteration order. -/
def workflowCandidates (wf : Json) : List String :=
  (wf.keys.map (fun nodeId =>
    match wf.getField nodeId with
    | some node => nodeCandidates node
    | none => [])).flatten

/-- The function `extractFromRawWorkflow(rawWorkflowString)`: parse, require a truthy
`object`, collect candidates over the nodes, pick the best and normalize.
`return best ? normalizePrompt(best) : null` — the truthiness test is on
the un-normalized `best`. -/
def extractFromRawWorkflow (rawWorkflowString : String) : Option String :=
  match safeJsonParse rawWorkflowString with
  | none => none
  | some wf =>
    if !wf.isTruthyObject then none
    else
      match pickBestString (workflowCandidates wf) with
      | some best => if best = "" then none else some (normalizePrompt best)
      | none => none

/-- The function `extractFromMetadataObject(meta)`: raw workflow delegation, then the
long-`prompt` field, then the fixed key scan.  `if (p) return p` — a step-1
result that is the empty string is falsy and does not win. -/
def extractFromMetadataObject (meta : Json) : Option String :=
  let step1 : Option String :=
    match meta.getField "raw_workflow" with
    | some (Json.str rw) =>
      (match extractFromRawWorkflow rw with
       | some p => if p = "" then none else some p
       | none => none)
    | _ => none
  match step1 with
  | some p => some p
  | none =>
    let step2 : Option String :=
      match meta.getField "prompt" with
      | some (Json.str s) =>
        if (jsTrim s).length > 0 then
          if (jsTrim s).length > 50 && !isPromptWrapperJson s then
            some (normalizePrompt s)
          else none
        else none
      | _ => none
    match step2 with
    | some p => some p
    | none =>
      ["positive", "positive_prompt", "Prompt", "Positive prompt"].findSome?
        (fun key =>
          match meta.getField key with
          | some (Json.str v) =>
            if (jsTrim v).length > 0 && !isPromptWrapperJson v then
              some (normalizePrompt v)
            else none
          | _ => none)

/-- The result record of `extractPositivePromptFromTextBlobs`
(`debugSource` is an optional field, absent in the all-phases-failed
return). -/
structure ExtractionResult where
  prompt : Option String
  debugSource : Option String
deriving DecidableEq, Repr

/-- Phase A loop: first blob that parses to a truthy object and from which
`extractFromMetadataObject` yields a truthy prompt. -/
def phaseA (textBlobs : List String) : Option String :=
  textBlobs.findSome? (fun blob =>
    match safeJsonParse blob with
    | some maybe =>
      if maybe.isTruthyObject then
        match extractFromMetadataObject maybe with
        | some p => if p = "" then none else some p
        | none => none
      else none
    | none => none)

/-- Phase B loop: first blob that parses to a truthy object with at least
one all-digit top-level key (`/^\d+$/`) and from which
`extractFromRawWorkflow` yields a truthy prompt. -/
def phaseB (textBlobs : List String) : Option String :=
  textBlobs.findSome? (fun blob =>
    match safeJsonParse blob with
    | some maybe =>
      if maybe.isTruthyObject then
        if maybe.keys.any (fun k => !k.toList.isEmpty && k.toList.all Char.isDigit) then
          match extractFromRawWorkflow blob with
          | some p => if p = "" then none else some p
          | none => none
        else none
      else none
    | none => none)

/-- Phase C: trim all blobs, keep those longer than 200 characters and not
wrapper JSON, pick the best; `if (best)` tests the un-normalized best, the
returned prompt is `normalizePrompt(best)`. -/
def phaseC (textBlobs : List String) : Option String :=
  let longOnes :=
    ((textBlobs.map (fun s => jsTrim s)).filter (fun s => s.length > 200)).filter
      (fun s => !isPromptWrapperJson s)
  match pickBestString longOnes with
  | some best => if best = "" then none else some (normalizePrompt best)
  | none => none

/-- The function `extractPositivePromptFromTextBlobs(textBlobs)`: the three phases in
order, first success wins, each with its tag; no tag on failure. -/
def extractPositivePromptFromTextBlobs (textBlobs : List String) :
    ExtractionResult :=
  match phaseA textBlobs with
  | some p => ⟨some p, some "metadata-json"⟩
  | none =>
    match phaseB textBlobs with
    | some p => ⟨some p, some "raw_workflow-json"⟩
    | none =>
      match phaseC textBlobs with
      | some p => ⟨some p, some "fallback-long-text"⟩
      | none => ⟨none, none⟩

/-! ### `src/pngTextChunks.ts` -/

/-- Modelled from the spec: the host decompression and text-decoding
primitives (`DecompressionStream("deflate")`, `DecompressionStream
("deflate-raw")`, `TextDecoder("utf-8", { fatal: false })`) live outside
the repository; they are parameters of the reader.  A failed decompression
is `none`; the permissive UTF-8 decoder is total. -/
structure Externals where
  inflateDeflate : List Nat → Option (List Nat)
  inflateRaw : List Nat → Option (List Nat)
  utf8Decode : List Nat → String

/-- One decoded text chunk (`PngTextChunk`). -/
structure PngTextChunk where
  type : String
  keyword : String
  text : String
deriving DecidableEq, Repr

def PNG_SIGNATURE : List Nat := [137, 80, 78, 71, 13, 10, 26, 10]

/-- JS `Uint8Array.prototype.slice(s, e)`: clamping, empty when `e ≤ s`. -/
def listSlice (l : List Nat) (s e : Nat) : List Nat :=
  (l.drop s).take (e - s)

/-- JS `DataView.getUint32(offset, false)`: 4 bytes big-endian.  (Callers
guarantee the four bytes exist; the `getD` default is unreachable.) -/
def readU32BE (bytes : List Nat) (offset : Nat) : Nat :=
  bytes.getD offset 0 * 16777216 + bytes.getD (offset + 1) 0 * 65536 +
    bytes.getD (offset + 2) 0 * 256 + bytes.getD (offset + 3) 0

/-- JS `String.fromCharCode` over each byte (Latin-1 decoding). -/
def decodeLatin1 (bytes : List Nat) : String :=
  String.mk (bytes.map (fun b => Char.ofNat b))

/-- The function `findNullByte(buf, start)`: index of the first zero byte at or after
`start`, `none` where the JS returns `-1`. -/
def findNullByte (buf : List Nat) (start : Nat) : Option Nat :=
  (((buf.drop start).findIdx? (fun b => b = 0)).map (fun i => i + start))

/-- The function `inflateZlib(data)`: try zlib-framed deflate, on failure retry the raw
stream; `none` when both fail (the JS rethrows, callers catch). -/
def inflateZlib (ext : Externals) (data : List Nat) : Option (List Nat) :=
  match ext.inflateDeflate data with
  | some out => some out
  | none => ext.inflateRaw data

/-- The function `parse_tEXt(data)`: split at the first NUL, Latin-1 on both sides. -/
def parse_tEXt (data : List Nat) : Option PngTextChunk :=
  match findNullByte data 0 with
  | none => none
  | some n =>
    some ⟨"tEXt", decodeLatin1 (listSlice data 0 n),
      decodeLatin1 (listSlice data (n + 1) data.length)⟩

/-- The function `parse_zTXt(data)`: keyword, NUL, compression method byte (must be 0;
an out-of-range read is `undefined !== 0`), then the compressed payload.
-/
def parse_zTXt (ext : Externals) (data : List Nat) : Option PngTextChunk :=
  match findNullByte data 0 with
  | none => none
  | some n =>
    if data.get? (n + 1) ≠ some 0 then none
    else
      match inflateZlib ext (listSlice data (n + 2) data.length) with
      | some inflated =>
        some ⟨"zTXt", decodeLatin1 (listSlice data 0 n), ext.utf8Decode inflated⟩
      | none => none

/-- The function `parse_iTXt(data)`: keyword NUL, compression flag and method bytes,
language tag NUL, translated keyword NUL, then the (possibly compressed)
text.  `compressionFlag === 1` is false on an out-of-range read. -/
def parse_iTXt (ext : Externals) (data : List Nat) : Option PngTextChunk :=
  match findNullByte data 0 with
  | none => none
  | some keywordEnd =>
    let keyword := decodeLatin1 (listSlice data 0 keywordEnd)
    let compressionFlag := data.get? (keywordEnd + 1)
    let compressionMethod := data.get? (keywordEnd + 2)
    match findNullByte data (keywordEnd + 3) with
    | none => none
    | some langEnd =>
      match findNullByte data (langEnd + 1) with
      | none => none
      | some translatedEnd =>
        let payload := listSlice data (translatedEnd + 1) data.length
        if compressionFlag = some 1 then
          if compressionMethod ≠ some 0 then none
          else
            match inflateZlib ext payload with
            | some inflated => some ⟨"iTXt", keyword, ext.utf8Decode inflated⟩
            | none => none
        else some ⟨"iTXt", keyword, ext.utf8Decode payload⟩

/-- The chunk-scanning loop of `extractPngTextChunks`, from a byte offset:
read length and type, stop silently on truncation, decode the three text
types (dropping failures), stop at `IEND`, skip everything else. -/
def scanChunks (ext : Externals) (bytes : List Nat) (offset : Nat) :
    List PngTextChunk :=
  if h : offset + 8 ≤ bytes.length then
    let length := readU32BE bytes offset
    let type := decodeLatin1 (listSlice bytes (offset + 4) (offset + 8))
    let dataStart := offset + 8
    let dataEnd := dataStart + length
    let crcEnd := dataEnd + 4
    if h2 : dataEnd > bytes.length ∨ crcEnd > bytes.length then []
    else
      let data := listSlice bytes dataStart dataEnd
      if type = "tEXt" then
        match parse_tEXt data with
        | some c => c :: scanChunks ext bytes crcEnd
        | none => scanChunks ext bytes crcEnd
      else if type = "zTXt" then
        match parse_zTXt ext data with
        | some c => c :: scanChunks ext bytes crcEnd
        | none => scanChunks ext bytes crcEnd
      else if type = "iTXt" then
        match parse_iTXt ext data with
        | some c => c :: scanChunks ext bytes crcEnd
        | none => scanChunks ext bytes crcEnd
      else if type = "IEND" then []
      else scanChunks ext bytes crcEnd
  else []
termination_by bytes.length - offset
decreasing_by
  all_goals (simp only [not_or, not_lt] at h2; omega)

/-- The function `extractPngTextChunks(file)`: signature check (a `FormatError` throw),
then the chunk scan from offset 8. -/
def extractPngTextChunks (ext : Externals) (bytes : List Nat) :
    Except String (List PngTextChunk) :=
  if bytes.length < 8 ∨ listSlice bytes 0 8 ≠ PNG_SIGNATURE then
    Except.error "File non sembra un PNG valido."
  else Except.ok (scanChunks ext bytes 8)

/-! Reference walk over the chunk framing, used to state what the scan
returns: every well-framed `(type, data)` record from an offset, stopping
only at truncation (not at `IEND`). -/

def rawChunkSeq (bytes : List Nat) (offset : Nat) : List (String × List Nat) :=
  if h : offset + 8 ≤ bytes.length then
    let length := readU32BE bytes offset
    let type := decodeLatin1 (listSlice bytes (offset + 4) (offset + 8))
    let dataEnd := offset + 8 + length
    let crcEnd := dataEnd + 4
    if h2 : dataEnd > bytes.length ∨ crcEnd > bytes.length then []
    else (type, listSlice bytes (offset + 8) dataEnd) :: rawChunkSeq bytes crcEnd
  else []
termination_by bytes.length - offset
decreasing_by
  simp only [not_or, not_lt] at h2; omega

/-- The per-record decoder the scan applies: the three text types decode
(possibly failing), every other type yields nothing. -/
def decodeChunk (ext : Externals) (type : String) (data : List Nat) :
    Option PngTextChunk :=
  if type = "tEXt" then parse_tEXt data
  else if type = "zTXt" then parse_zTXt ext data
  else if type = "iTXt" then parse_iTXt ext data
  else none

/-! ### Spec-side definitions.
Readings of the specification text, to be compared with the functions
embedded from the source. -/

/-- The candidate list after the two dropping stages of `pickBestString`
(the spec's "trim and drop empty entries; drop any entry matching
`isWrapperPrompt`"). -/
def cleanedOf (candidates : List String) : List String :=
  ((candidates.map (fun c => jsTrim c)).filter (fun c => c ≠ "")).filter
    (fun c => !isPromptWrapperJson c)

/-- Step 1 of the metadata-object priority order, as amended: the
delegated workflow extraction wins only when it yields a non-empty
prompt (JS truthiness). -/
def metadataStep1Spec (meta : Json) : Option String :=
  match meta.getField "raw_workflow" with
  | some (Json.str rw) =>
    (match extractFromRawWorkflow rw with
     | some p => if p = "" then none else some p
     | none => none)
  | _ => none

/-- Step 2 of the spec's priority order: the `prompt` field, when a
string whose trimmed length exceeds 50 and not wrapper JSON, normalized.
-/
def metadataStep2Spec (meta : Json) : Option String :=
  match meta.getField "prompt" with
  | some (Json.str s) =>
    if (jsTrim s).length > 50 && !isPromptWrapperJson s then
      some (normalizePrompt s)
    else none
  | _ => none

/-- Step 3 of the spec's priority order: the fixed key list, first
non-empty non-wrapper string value, normalized. -/
def metadataStep3Spec (meta : Json) : Option String :=
  ["positive", "positive_prompt", "Prompt", "Positive prompt"].findSome?
    (fun key =>
      match meta.getField key with
      | some (Json.str v) =>
        if (jsTrim v).length > 0 && !isPromptWrapperJson v then
          some (normalizePrompt v)
        else none
      | _ => none)

/-- The three steps in strict priority order, first success wins. -/
def extractFromMetadataObjectSpec (meta : Json) : Option String :=
  match metadataStep1Spec meta with
  | some p => some p
  | none =>
    match metadataStep2Spec meta with
    | some p => some p
    | none => metadataStep3Spec meta

/-! ### Concrete inputs used by witnesses and counterexamples. -/

/-- A raw workflow whose only candidate is the two-character escape
sequence `\n`, which normalization collapses to the empty string. -/
def emptyingWorkflow : String := "\x7b\"9\":\x7b\"inputs\":\x7b\"positive\":\"\\\\n\"\x7d\x7d\x7d"

/-- A metadata object whose `raw_workflow` extraction yields the empty
string and whose `positive` field holds a prompt. -/
def c1Meta : Json :=
  Json.obj [("raw_workflow", Json.str emptyingWorkflow),
    ("positive", Json.str "hello")]

/-- A workflow-graph blob with one all-digit node key. -/
def c2Blob : String := "\x7b\"1\":\x7b\"inputs\":\x7b\"positive\":\"a cat\"\x7d\x7d\x7d"

/-- The parsed form of `c2Blob`. -/
def c2Wf : Json :=
  Json.obj [("1", Json.obj [("inputs", Json.obj [("positive", Json.str "a cat")])])]

/-- A blob that parses as a JSON array of one node-like object. -/
def c9Blob : String := "[\x7b\"inputs\":\x7b\"positive\":\"a cat\"\x7d\x7d]"

/-- The parsed form of `c9Blob`. -/
def c9Array : Json :=
  Json.arr [Json.obj [("inputs", Json.obj [("positive", Json.str "a cat")])]]

/-- A string of 101 copies of the literal escape sequence `\n`: 202 characters, no
JSON shape, collapsing to the empty string under normalization. -/
def c10Blob : String := String.mk (List.flatten (List.replicate 101 ['\\', 'n']))

/-- Externals in which every decompression attempt fails. -/
def extNone : Externals := ⟨fun _ => none, fun _ => none, fun _ => ""⟩

/-- Externals in which zlib-framed decompression succeeds (identity). -/
def extId : Externals := ⟨fun d => some d, fun _ => none, fun _ => ""⟩

/-- A signature followed by a chunk whose declared span overruns the
buffer. -/
def c5Trunc : List Nat := PNG_SIGNATURE ++ [0, 0, 0, 255, 116, 69, 88, 116]

/-- A signature, one well-formed tEXt chunk (`"k"` ↦ `"hi"`), an IEND
chunk, and one further tEXt chunk after the IEND. -/
def c6Bytes : List Nat :=
  PNG_SIGNATURE ++
    [0, 0, 0, 4, 116, 69, 88, 116, 107, 0, 104, 105, 0, 0, 0, 0] ++
    [0, 0, 0, 0, 73, 69, 78, 68, 0, 0, 0, 0] ++
    [0, 0, 0, 1, 116, 69, 88, 116, 107, 0, 0, 0, 0]

/-- A signature and one zTXt chunk whose compressed payload no
decompressor accepts. -/
def c7Bytes : List Nat :=
  PNG_SIGNATURE ++ [0, 0, 0, 4, 122, 84, 88, 116, 107, 0, 0, 9, 0, 0, 0, 0]

/-! ### Helper lemmas: clean step equations for the chunk scan, and the
correspondence between the scan and the reference walk. -/


theorem scanChunks_oob (ext : Externals) (bytes : List Nat) (offset : Nat)
    (hx : ¬ (offset + 8 ≤ bytes.length)) : scanChunks ext bytes offset = [] := by
  rw [scanChunks.eq_def]; simp [hx]

theorem rawChunkSeq_oob (bytes : List Nat) (offset : Nat)
    (hx : ¬ (offset + 8 ≤ bytes.length)) : rawChunkSeq bytes offset = [] := by
  rw [rawChunkSeq.eq_def]; simp [hx]

theorem scanChunks_trunc (ext : Externals) (bytes : List Nat) (offset : Nat)
    (hx : offset + 8 ≤ bytes.length)
    (h2 : offset + 8 + readU32BE bytes offset > bytes.length ∨
      offset + 8 + readU32BE bytes offset + 4 > bytes.length) :
    scanChunks ext bytes offset = [] := by
  rw [scanChunks.eq_def]; simp [hx, h2]

theorem rawChunkSeq_trunc (bytes : List Nat) (offset : Nat)
    (hx : offset + 8 ≤ bytes.length)
    (h2 : offset + 8 + readU32BE bytes offset > bytes.length ∨
      offset + 8 + readU32BE bytes offset + 4 > bytes.length) :
    rawChunkSeq bytes offset = [] := by
  rw [rawChunkSeq.eq_def]; simp [hx, h2]

theorem rawChunkSeq_step (bytes : List Nat) (offset : Nat)
    (hx : offset + 8 ≤ bytes.length)
    (h2 : ¬ (offset + 8 + readU32BE bytes offset > bytes.length ∨
      offset + 8 + readU32BE bytes offset + 4 > bytes.length)) :
    rawChunkSeq bytes offset =
      (decodeLatin1 (listSlice bytes (offset + 4) (offset + 8)),
        listSlice bytes (offset + 8) (offset + 8 + readU32BE bytes offset)) ::
        rawChunkSeq bytes (offset + 8 + readU32BE bytes offset + 4) := by
  rw [rawChunkSeq.eq_def]; simp [hx, h2]

theorem scanChunks_step (ext : Externals) (bytes : List Nat) (offset : Nat)
    (hx : offset + 8 ≤ bytes.length)
    (h2 : ¬ (offset + 8 + readU32BE bytes offset > bytes.length ∨
      offset + 8 + readU32BE bytes offset + 4 > bytes.length)) :
    scanChunks ext bytes offset =
      (if decodeLatin1 (listSlice bytes (offset + 4) (offset + 8)) = "IEND" then []
       else
        match decodeChunk ext (decodeLatin1 (listSlice bytes (offset + 4) (offset + 8)))
            (listSlice bytes (offset + 8) (offset + 8 + readU32BE bytes offset)) with
        | some c => c :: scanChunks ext bytes (offset + 8 + readU32BE bytes offset + 4)
        | none => scanChunks ext bytes (offset + 8 + readU32BE bytes offset + 4)) := by
  rw [scanChunks.eq_def]
  simp only [dif_pos hx, h2, dite_false, dif_neg h2]
  by_cases h1 : decodeLatin1 (listSlice bytes (offset + 4) (offset + 8)) = "tEXt"
  · simp [h1, decodeChunk]
  · by_cases h3 : decodeLatin1 (listSlice bytes (offset + 4) (offset + 8)) = "zTXt"
    · simp [h1, h3, decodeChunk]
    · by_cases h4 : decodeLatin1 (listSlice bytes (offset + 4) (offset + 8)) = "iTXt"
      · simp [h1, h3, h4, decodeChunk]
      · by_cases h5 : decodeLatin1 (listSlice bytes (offset + 4) (offset + 8)) = "IEND"
        · simp [h1, h3, h4, h5, decodeChunk]
        · simp [h1, h3, h4, h5, decodeChunk]



theorem scanChunks_eq_decode (ext : Externals) (bytes : List Nat) (offset : Nat) :
    scanChunks ext bytes offset =
      ((rawChunkSeq bytes offset).takeWhile (fun r => r.1 ≠ "IEND")).filterMap
        (fun r => decodeChunk ext r.1 r.2) := by
  have H : ∀ n : Nat, ∀ off : Nat, bytes.length ≤ off + n →
      scanChunks ext bytes off =
        ((rawChunkSeq bytes off).takeWhile (fun r => r.1 ≠ "IEND")).filterMap
          (fun r => decodeChunk ext r.1 r.2) := by
    intro n
    induction n with
    | zero =>
      intro off hn
      have hx : ¬ (off + 8 ≤ bytes.length) := by omega
      rw [scanChunks_oob ext bytes off hx, rawChunkSeq_oob bytes off hx]
      simp
    | succ n ih =>
      intro off hn
      by_cases h : off + 8 ≤ bytes.length
      · by_cases h2 : off + 8 + readU32BE bytes off > bytes.length ∨
            off + 8 + readU32BE bytes off + 4 > bytes.length
        · rw [scanChunks_trunc ext bytes off h h2, rawChunkSeq_trunc bytes off h h2]
          simp
        · rw [scanChunks_step ext bytes off h h2, rawChunkSeq_step bytes off h h2]
          have hrec := ih (off + 8 + readU32BE bytes off + 4) (by omega)
          by_cases hIend : decodeLatin1 (listSlice bytes (off + 4) (off + 8)) = "IEND"
          · simp [hIend]
          · simp only [hIend, if_false, List.takeWhile_cons, ne_eq, not_false_iff,
              List.filterMap_cons, decide_not, decide_False, Bool.not_false]
            cases hdec : decodeChunk ext (decodeLatin1 (listSlice bytes (off + 4) (off + 8)))
                (listSlice bytes (off + 8) (off + 8 + readU32BE bytes off)) with
            | some c => simp [hdec, hrec, hIend]
            | none => simp [hdec, hrec, hIend]
      · rw [scanChunks_oob ext bytes off h, rawChunkSeq_oob bytes off h]
        simp
  exact H bytes.length offset (by omega)


theorem firstMaxByLength_eq_none (l : List String) :
    firstMaxByLength l = none ↔ l = [] := by
  cases l with
  | nil => simp [firstMaxByLength]
  | cons c cs =>
    rw [firstMaxByLength]
    cases hcs : firstMaxByLength cs with
    | none => simp
    | some b => by_cases hlen : b.length > c.length <;> simp [hlen]

theorem firstMaxByLength_decomp (l : List String) (b : String)
    (h : firstMaxByLength l = some b) :
    ∃ pre post, l = pre ++ b :: post ∧ (∀ c ∈ pre, c.length < b.length) ∧
      ∀ c ∈ post, c.length ≤ b.length := by
  induction l generalizing b with
  | nil => simp [firstMaxByLength] at h
  | cons c cs ih =>
    rw [firstMaxByLength] at h
    split at h
    · rename_i hcs
      have hb : c = b := by injection h
      subst hb
      have hnil : cs = [] := (firstMaxByLength_eq_none cs).1 hcs
      subst hnil
      exact ⟨[], [], rfl, by simp, by simp⟩
    · rename_i b2 hcs
      split at h
      · rename_i hlen
        have hb : b2 = b := by injection h
        subst hb
        obtain ⟨pre, post, heq, hpre, hpost⟩ := ih _ hcs
        refine ⟨c :: pre, post, by simp [heq], ?_, hpost⟩
        intro x hx
        rcases List.mem_cons.mp hx with rfl | hx
        · exact hlen
        · exact hpre x hx
      · rename_i hlen
        have hb : c = b := by injection h
        subst hb
        obtain ⟨pre, post, heq, hpre, hpost⟩ := ih _ hcs
        refine ⟨[], cs, rfl, by simp, ?_⟩
        intro x hx
        have hxb : x.length ≤ b2.length := by
          rw [heq] at hx
          rcases List.mem_append.mp hx with hx | hx
          · exact le_of_lt (hpre x hx)
          · rcases List.mem_cons.mp hx with rfl | hx
            · exact le_refl _
            · exact hpost x hx
        omega

theorem pickBestString_mem {cs : List String} {b : String}
    (h : pickBestString cs = some b) : b ∈ cleanedOf cs := by
  obtain ⟨pre, post, heq, -, -⟩ := firstMaxByLength_decomp (cleanedOf cs) b h
  rw [heq]
  exact List.mem_append.mpr (Or.inr (List.mem_cons_self _ _))

theorem pickBestString_ne_empty {cs : List String} {b : String}
    (h : pickBestString cs = some b) : b ≠ "" := by
  have hb := pickBestString_mem h
  unfold cleanedOf at hb
  have := (List.mem_filter.mp (List.mem_filter.mp hb).1).2
  simpa using this

theorem mem_stringFieldCandidate {inputs : Json} {field c : String} :
    c ∈ stringFieldCandidate inputs field ↔
      inputs.getField field = some (Json.str c) ∧ (jsTrim c).length > 0 := by
  unfold stringFieldCandidate
  cases h : inputs.getField field with
  | none => simp
  | some v =>
    cases v with
    | str s =>
      by_cases hs : (jsTrim s).length > 0
      · simp only [if_pos hs, List.mem_singleton, Option.some.injEq, Json.str.injEq]
        constructor
        · rintro rfl
          exact ⟨rfl, hs⟩
        · rintro ⟨rfl, -⟩
          rfl
      · simp only [if_neg hs, List.not_mem_nil, false_iff, not_and,
          Option.some.injEq, Json.str.injEq]
        rintro rfl
        exact hs
    | null => simp
    | bool b => simp
    | num lx => simp
    | arr xs => simp
    | obj fs => simp

theorem mem_nodeCandidates {node : Json} {c : String} :
    c ∈ nodeCandidates node ↔
      node.isTruthyObject = true ∧
        (((inputsOf node).getField "positive" = some (Json.str c) ∧
            (jsTrim c).length > 0) ∨
          (looksPositiveNode node = true ∧
            (((inputsOf node).getField "text" = some (Json.str c) ∧
                (jsTrim c).length > 0) ∨
              ((inputsOf node).getField "prompt" = some (Json.str c) ∧
                (jsTrim c).length > 0)))) := by
  unfold nodeCandidates
  by_cases h : node.isTruthyObject
  · by_cases hlp : looksPositiveNode node <;>
      simp [h, hlp, mem_stringFieldCandidate]
  · simp only [h] at *
    simp [h]

theorem mem_workflowCandidates {wf : Json} {c : String} :
    c ∈ workflowCandidates wf ↔
      ∃ nodeId ∈ wf.keys, ∃ node, wf.getField nodeId = some node ∧
        c ∈ nodeCandidates node := by
  unfold workflowCandidates
  rw [List.mem_flatten]
  constructor
  · rintro ⟨l, hl, hc⟩
    obtain ⟨nodeId, hid, rfl⟩ := List.mem_map.mp hl
    cases hget : wf.getField nodeId with
    | none => rw [hget] at hc; simp at hc
    | some node =>
      rw [hget] at hc
      exact ⟨nodeId, hid, node, hget, hc⟩
  · rintro ⟨nodeId, hid, node, hget, hc⟩
    refine ⟨nodeCandidates node, ?_, hc⟩
    refine List.mem_map.mpr ⟨nodeId, hid, ?_⟩
    rw [hget]

theorem extractFromRawWorkflow_pick (s : String) (wf : Json)
    (hp : safeJsonParse s = some wf) (ht : wf.isTruthyObject = true) :
    extractFromRawWorkflow s =
      Option.map normalizePrompt (pickBestString (workflowCandidates wf)) := by
  unfold extractFromRawWorkflow
  rw [hp]
  simp only [ht, Bool.not_true, Bool.false_eq_true, if_false]
  cases hpick : pickBestString (workflowCandidates wf) with
  | none => simp
  | some b =>
    have hne := pickBestString_ne_empty hpick
    simp [hne]

theorem metadataStep2_outer_trim (s : String) :
    (if (jsTrim s).length > 0 then
      (if (jsTrim s).length > 50 && !isPromptWrapperJson s then
        some (normalizePrompt s)
      else none)
    else none) =
      (if (jsTrim s).length > 50 && !isPromptWrapperJson s then
        some (normalizePrompt s)
      else none) := by
  by_cases h0 : (jsTrim s).length > 0
  · simp [h0]
  · have h50 : ¬ ((jsTrim s).length > 50) := by omega
    simp [h0, h50]

theorem extractFromMetadataObject_eq_spec (meta : Json) :
    extractFromMetadataObject meta = extractFromMetadataObjectSpec meta := by
  unfold extractFromMetadataObject extractFromMetadataObjectSpec
    metadataStep1Spec metadataStep2Spec metadataStep3Spec
  cases h1 : meta.getField "raw_workflow" with
  | none =>
    dsimp only
    cases h2 : meta.getField "prompt" with
    | none => rfl
    | some v =>
      cases v <;> dsimp only <;> first
        | rfl
        | (rename_i s; rw [metadataStep2_outer_trim s])
  | some v =>
    cases v
    case str rw_ =>
      dsimp only
      cases hrw : extractFromRawWorkflow rw_ with
      | none =>
        dsimp only
        cases h2 : meta.getField "prompt" with
        | none => rfl
        | some w =>
          cases w <;> dsimp only <;> first
            | rfl
            | (rename_i s; rw [metadataStep2_outer_trim s])
      | some p =>
        dsimp only
        by_cases hp : p = ""
        · rw [if_pos hp]
          dsimp only
          cases h2 : meta.getField "prompt" with
          | none => rfl
          | some w =>
            cases w <;> dsimp only <;> first
              | rfl
              | (rename_i s; rw [metadataStep2_outer_trim s])
        · rw [if_neg hp]
    all_goals (
      dsimp only
      cases h2 : meta.getField "prompt" with
      | none => rfl
      | some w =>
        cases w <;> dsimp only <;> first
          | rfl
          | (rename_i s; rw [metadataStep2_outer_trim s]))

theorem scanChunks_cons (ext : Externals) (bytes : List Nat)
    (offset cEnd : Nat) (c : PngTextChunk)
    (hx : offset + 8 ≤ bytes.length)
    (h2 : ¬ (offset + 8 + readU32BE bytes offset > bytes.length ∨
      offset + 8 + readU32BE bytes offset + 4 > bytes.length))
    (hne : decodeLatin1 (listSlice bytes (offset + 4) (offset + 8)) ≠ "IEND")
    (hdec : decodeChunk ext (decodeLatin1 (listSlice bytes (offset + 4) (offset + 8)))
      (listSlice bytes (offset + 8) (offset + 8 + readU32BE bytes offset)) = some c)
    (hc : offset + 8 + readU32BE bytes offset + 4 = cEnd) :
    scanChunks ext bytes offset = c :: scanChunks ext bytes cEnd := by
  subst hc
  rw [scanChunks_step ext bytes offset hx h2, if_neg hne, hdec]

theorem scanChunks_skip (ext : Externals) (bytes : List Nat) (offset cEnd : Nat)
    (hx : offset + 8 ≤ bytes.length)
    (h2 : ¬ (offset + 8 + readU32BE bytes offset > bytes.length ∨
      offset + 8 + readU32BE bytes offset + 4 > bytes.length))
    (hne : decodeLatin1 (listSlice bytes (offset + 4) (offset + 8)) ≠ "IEND")
    (hdec : decodeChunk ext (decodeLatin1 (listSlice bytes (offset + 4) (offset + 8)))
      (listSlice bytes (offset + 8) (offset + 8 + readU32BE bytes offset)) = none)
    (hc : offset + 8 + readU32BE bytes offset + 4 = cEnd) :
    scanChunks ext bytes offset = scanChunks ext bytes cEnd := by
  subst hc
  rw [scanChunks_step ext bytes offset hx h2, if_neg hne, hdec]

theorem scanChunks_iendStop (ext : Externals) (bytes : List Nat) (offset : Nat)
    (hx : offset + 8 ≤ bytes.length)
    (h2 : ¬ (offset + 8 + readU32BE bytes offset > bytes.length ∨
      offset + 8 + readU32BE bytes offset + 4 > bytes.length))
    (hiend : decodeLatin1 (listSlice bytes (offset + 4) (offset + 8)) = "IEND") :
    scanChunks ext bytes offset = [] := by
  rw [scanChunks_step ext bytes offset hx h2, if_pos hiend]

/-! ### Claim theorems. -/

/-- C1 (counterexample): on `c1Meta` the `raw_workflow` delegation of
step 1 yields a prompt (the empty string, from normalization collapsing
the `\n` escape), yet `extractFromMetadataObject` goes on and returns
`"hello"` from the step-3 key scan — so step-1 success does not always
win as the claim states. -/
theorem c1_metadata_priority_counterexample :
    c1Meta.getField "raw_workflow" = some (Json.str emptyingWorkflow) ∧
    extractFromRawWorkflow emptyingWorkflow = some "" ∧
    extractFromMetadataObject c1Meta = some "hello" ∧
    (some "hello" : Option String) ≠ some "" :=
  ⟨rfl, rfl, rfl, by decide⟩

/-- C1 (amended): `extractFromMetadataObject` tries raw-workflow
delegation, then the long-`prompt` field, then the fixed key scan, in
strict priority order with first success winning — where the step-1
delegation result wins only when it is a non-empty string (JS
truthiness); steps 2 and 3 are as the claim states them. -/
theorem c1_metadata_priority_amended (meta : Json) :
    extractFromMetadataObject meta = extractFromMetadataObjectSpec meta :=
  extractFromMetadataObject_eq_spec meta

/-- C2 (counterexample): Phase B is the first phase to succeed on
`[c2Blob]`, and the attached tag is `"raw_workflow-json"`, which is not
the claimed `"raw-workflow-json"`. -/
theorem c2_phaseB_tag_counterexample :
    phaseA [c2Blob] = none ∧ phaseB [c2Blob] = some "a cat" ∧
    (extractPositivePromptFromTextBlobs [c2Blob]).debugSource =
      some "raw_workflow-json" ∧
    (extractPositivePromptFromTextBlobs [c2Blob]).debugSource ≠
      some "raw-workflow-json" :=
  ⟨rfl, rfl, rfl, by decide⟩

/-- C2 (amended): whenever Phase B is the first phase to succeed, the
result carries the prompt together with the source tag
`"raw_workflow-json"` (spelled with an underscore, a value outside the
spec's four-element source set). -/
theorem c2_phaseB_tag (textBlobs : List String) (p : String)
    (hA : phaseA textBlobs = none) (hB : phaseB textBlobs = some p) :
    extractPositivePromptFromTextBlobs textBlobs =
      ⟨some p, some "raw_workflow-json"⟩ := by
  unfold extractPositivePromptFromTextBlobs
  rw [hA, hB]

/-- C2 (witness): the amended statement at `[c2Blob]`. -/
theorem c2_phaseB_tag_witness :
    phaseA [c2Blob] = none ∧ phaseB [c2Blob] = some "a cat" ∧
    extractPositivePromptFromTextBlobs [c2Blob] =
      ⟨some "a cat", some "raw_workflow-json"⟩ :=
  ⟨rfl, rfl, c2_phaseB_tag [c2Blob] "a cat" rfl rfl⟩

/-- C3: over a parsed workflow graph the collected candidates are exactly
`inputs.positive` whenever it is a non-blank string, and `inputs.text`
and `inputs.prompt` (when non-blank strings) exactly on nodes that look
positive; the result is the `pickBestString` winner among them,
normalized, and absent when no candidate survives. -/
theorem c3_workflow_candidates (s : String) (wf : Json)
    (hp : safeJsonParse s = some wf) (ht : wf.isTruthyObject = true) :
    (∀ c, c ∈ workflowCandidates wf ↔
      ∃ nodeId ∈ wf.keys, ∃ node, wf.getField nodeId = some node ∧
        node.isTruthyObject = true ∧
          (((inputsOf node).getField "positive" = some (Json.str c) ∧
              (jsTrim c).length > 0) ∨
            (looksPositiveNode node = true ∧
              (((inputsOf node).getField "text" = some (Json.str c) ∧
                  (jsTrim c).length > 0) ∨
                ((inputsOf node).getField "prompt" = some (Json.str c) ∧
                  (jsTrim c).length > 0))))) ∧
    extractFromRawWorkflow s =
      Option.map normalizePrompt (pickBestString (workflowCandidates wf)) :=
  ⟨fun c => by rw [mem_workflowCandidates]; simp only [mem_nodeCandidates],
    extractFromRawWorkflow_pick s wf hp ht⟩

/-- C3 (witness): the statement at the one-node graph `c2Blob`. -/
theorem c3_workflow_candidates_witness :
    safeJsonParse c2Blob = some c2Wf ∧ c2Wf.isTruthyObject = true ∧
    extractFromRawWorkflow c2Blob =
      Option.map normalizePrompt (pickBestString (workflowCandidates c2Wf)) :=
  ⟨rfl, rfl, (c3_workflow_candidates c2Blob c2Wf rfl rfl).2⟩

/-- C4: `pickBestString` trims, drops blanks, drops wrapper JSON; absent
exactly when nothing remains; otherwise it returns the surviving entry of
greatest length, earlier entries strictly shorter (stable tie-break). -/
theorem c4_pickBestString (candidates : List String) :
    (pickBestString candidates = none ↔ cleanedOf candidates = []) ∧
    ∀ b, pickBestString candidates = some b →
      ∃ pre post, cleanedOf candidates = pre ++ b :: post ∧
        (∀ c ∈ pre, c.length < b.length) ∧ ∀ c ∈ post, c.length ≤ b.length :=
  ⟨firstMaxByLength_eq_none (cleanedOf candidates),
    fun b h => firstMaxByLength_decomp (cleanedOf candidates) b h⟩

/-- C4 (witness): the spec's own examples. -/
theorem c4_pickBestString_witness :
    pickBestString ["short", "a much longer candidate string here"] =
      some "a much longer candidate string here" ∧
    (∃ pre post,
      cleanedOf ["short", "a much longer candidate string here"] =
        pre ++ "a much longer candidate string here" :: post ∧
      (∀ c ∈ pre, c.length < "a much longer candidate string here".length) ∧
      ∀ c ∈ post, c.length ≤ "a much longer candidate string here".length) ∧
    pickBestString ["\x7b\"prompt\":\"x\"\x7d"] = none :=
  ⟨rfl,
    (c4_pickBestString ["short", "a much longer candidate string here"]).2
      "a much longer candidate string here" rfl,
    rfl⟩

/-- C5: the chunk reader fails with the format error exactly when the
buffer is shorter than 8 bytes or its first 8 bytes differ from the PNG
signature; past the signature it always returns a chunk list, and a chunk
whose declared data-plus-trailer span overruns the buffer silently ends
the scan with the chunks collected so far. -/
theorem c5_formatError (ext : Externals) (bytes : List Nat) :
    ((extractPngTextChunks ext bytes =
        Except.error "File non sembra un PNG valido.") ↔
      (bytes.length < 8 ∨ listSlice bytes 0 8 ≠ PNG_SIGNATURE)) ∧
    (¬ (bytes.length < 8 ∨ listSlice bytes 0 8 ≠ PNG_SIGNATURE) →
      extractPngTextChunks ext bytes = Except.ok (scanChunks ext bytes 8)) ∧
    (∀ offset, offset + 8 ≤ bytes.length →
      (offset + 8 + readU32BE bytes offset > bytes.length ∨
        offset + 8 + readU32BE bytes offset + 4 > bytes.length) →
      scanChunks ext bytes offset = []) := by
  refine ⟨?_, ?_, ?_⟩
  · unfold extractPngTextChunks
    by_cases h : bytes.length < 8 ∨ listSlice bytes 0 8 ≠ PNG_SIGNATURE
    · simp [h]
    · simp [h]
  · intro h
    unfold extractPngTextChunks
    rw [if_neg h]
  · intro offset hx h2
    exact scanChunks_trunc ext bytes offset hx h2

/-- C5 (witness): a bare signature passes and yields a list; a truncated
chunk declaration ends the scan empty. -/
theorem c5_formatError_witness :
    ¬ (PNG_SIGNATURE.length < 8 ∨
        listSlice PNG_SIGNATURE 0 8 ≠ PNG_SIGNATURE) ∧
    extractPngTextChunks extNone PNG_SIGNATURE =
      Except.ok (scanChunks extNone PNG_SIGNATURE 8) ∧
    8 + 8 ≤ c5Trunc.length ∧
    (8 + 8 + readU32BE c5Trunc 8 > c5Trunc.length ∨
      8 + 8 + readU32BE c5Trunc 8 + 4 > c5Trunc.length) ∧
    scanChunks extNone c5Trunc 8 = [] :=
  ⟨by decide, (c5_formatError extNone PNG_SIGNATURE).2.1 (by decide),
    by decide, by decide,
    (c5_formatError extNone c5Trunc).2.2 8 (by decide) (by decide)⟩

/-- C6: a successful read returns exactly the decodable text chunks among
the well-framed records strictly before the first IEND, in stream order:
records after the IEND are ignored, non-text types and undecodable text
chunks contribute nothing. -/
theorem c6_chunkList (ext : Externals) (bytes : List Nat)
    (chunks : List PngTextChunk)
    (hok : extractPngTextChunks ext bytes = Except.ok chunks) :
    chunks = ((rawChunkSeq bytes 8).takeWhile (fun r => r.1 ≠ "IEND")).filterMap
      (fun r => decodeChunk ext r.1 r.2) := by
  unfold extractPngTextChunks at hok
  by_cases h : bytes.length < 8 ∨ listSlice bytes 0 8 ≠ PNG_SIGNATURE
  · rw [if_pos h] at hok
    cases hok
  · rw [if_neg h] at hok
    injection hok with hok
    rw [← hok]
    exact scanChunks_eq_decode ext bytes 8

/-- C6 (witness): on `c6Bytes` the read keeps the one good tEXt chunk and
ignores the one after the IEND. -/
theorem c6_chunkList_witness :
    extractPngTextChunks extNone c6Bytes =
      Except.ok [⟨"tEXt", "k", "hi"⟩] ∧
    [(⟨"tEXt", "k", "hi"⟩ : PngTextChunk)] =
      ((rawChunkSeq c6Bytes 8).takeWhile (fun r => r.1 ≠ "IEND")).filterMap
        (fun r => decodeChunk extNone r.1 r.2) := by
  have hok : extractPngTextChunks extNone c6Bytes =
      Except.ok [⟨"tEXt", "k", "hi"⟩] := by
    have h1 : scanChunks extNone c6Bytes 8 =
        ⟨"tEXt", "k", "hi"⟩ :: scanChunks extNone c6Bytes 24 :=
      scanChunks_cons extNone c6Bytes 8 24 ⟨"tEXt", "k", "hi"⟩
        (by decide) (by decide) (by decide) (by decide) (by decide)
    have h2 : scanChunks extNone c6Bytes 24 = [] :=
      scanChunks_iendStop extNone c6Bytes 24 (by decide) (by decide) (by decide)
    unfold extractPngTextChunks
    rw [if_neg (by decide), h1, h2]
  exact ⟨hok, c6_chunkList extNone c6Bytes [⟨"tEXt", "k", "hi"⟩] hok⟩

/-- C7: decompression tries the zlib-framed stream first and falls back
to the raw stream exactly when the first attempt fails; when both fail
the zTXt (or compressed iTXt) chunk decodes to nothing, and the scan
continues at the next chunk — the failure is never fatal. -/
theorem c7_inflate_fallback (ext : Externals) :
    (∀ d out, ext.inflateDeflate d = some out → inflateZlib ext d = some out) ∧
    (∀ d, ext.inflateDeflate d = none → inflateZlib ext d = ext.inflateRaw d) ∧
    (∀ data n, findNullByte data 0 = some n → data.get? (n + 1) = some 0 →
      inflateZlib ext (listSlice data (n + 2) data.length) = none →
      parse_zTXt ext data = none) ∧
    (∀ data kEnd lEnd tEnd, findNullByte data 0 = some kEnd →
      data.get? (kEnd + 1) = some 1 → data.get? (kEnd + 2) = some 0 →
      findNullByte data (kEnd + 3) = some lEnd →
      findNullByte data (lEnd + 1) = some tEnd →
      inflateZlib ext (listSlice data (tEnd + 1) data.length) = none →
      parse_iTXt ext data = none) ∧
    (∀ bytes offset cEnd, offset + 8 ≤ bytes.length →
      ¬ (offset + 8 + readU32BE bytes offset > bytes.length ∨
        offset + 8 + readU32BE bytes offset + 4 > bytes.length) →
      decodeLatin1 (listSlice bytes (offset + 4) (offset + 8)) = "zTXt" →
      parse_zTXt ext
        (listSlice bytes (offset + 8) (offset + 8 + readU32BE bytes offset)) =
        none →
      offset + 8 + readU32BE bytes offset + 4 = cEnd →
      scanChunks ext bytes offset = scanChunks ext bytes cEnd) := by
  refine ⟨?_, ?_, ?_, ?_, ?_⟩
  · intro d out h
    unfold inflateZlib
    rw [h]
  · intro d h
    unfold inflateZlib
    rw [h]
  · intro data n h0 h1 h2
    unfold parse_zTXt
    rw [h0]
    dsimp only
    rw [if_neg (fun hcon => hcon h1), h2]
  · intro data kEnd lEnd tEnd h0 h1 h2 h3 h4 h5
    unfold parse_iTXt
    rw [h0]
    dsimp only
    rw [h3]
    dsimp only
    rw [h4]
    dsimp only
    rw [if_pos h1, if_neg (fun hcon => hcon h2), h5]
  · intro bytes offset cEnd hx h2 hty hdec hc
    refine scanChunks_skip ext bytes offset cEnd hx h2 ?_ ?_ hc
    · rw [hty]
      decide
    · rw [hty]
      simp only [decodeChunk, if_neg (by decide : ¬ ("zTXt" : String) = "tEXt"),
        if_pos rfl]
      exact hdec

/-- C7 (witness): identity-deflate externals take the first branch;
all-failing externals fall back and drop the chunk on `c7Bytes` while the
scan continues to the end of the buffer. -/
theorem c7_inflate_fallback_witness :
    inflateZlib extId [9] = some [9] ∧
    inflateZlib extNone [9] = extNone.inflateRaw [9] ∧
    parse_zTXt extNone [107, 0, 0, 9] = none ∧
    parse_iTXt extNone [107, 0, 1, 0, 0, 0, 9] = none ∧
    scanChunks extNone c7Bytes 8 = scanChunks extNone c7Bytes 24 :=
  ⟨(c7_inflate_fallback extId).1 [9] [9] rfl,
    (c7_inflate_fallback extNone).2.1 [9] rfl,
    (c7_inflate_fallback extNone).2.2.1 [107, 0, 0, 9] 1 (by decide) (by decide)
      (by decide),
    (c7_inflate_fallback extNone).2.2.2.1 [107, 0, 1, 0, 0, 0, 9] 1 4 5
      (by decide) (by decide) (by decide) (by decide) (by decide) (by decide),
    (c7_inflate_fallback extNone).2.2.2.2 c7Bytes 8 24 (by decide) (by decide)
      (by decide) (by decide) (by decide)⟩

/-- C8: the selector result carries no source tag exactly when it
carries no prompt; every successful phase attaches its tag to a present
prompt. -/
theorem c8_source_iff_prompt (textBlobs : List String) :
    ((extractPositivePromptFromTextBlobs textBlobs).debugSource = none ↔
      (extractPositivePromptFromTextBlobs textBlobs).prompt = none) := by
  unfold extractPositivePromptFromTextBlobs
  cases phaseA textBlobs with
  | some p => simp
  | none =>
    cases phaseB textBlobs with
    | some p => simp
    | none =>
      cases phaseC textBlobs with
      | some p => simp
      | none => simp

/-- C9: a blob parsing as a non-empty JSON array passes the truthy-object
entry checks of Phases A and B; its element indices are all-digit keys,
so Phase B extracts `inputs.positive` of the element. -/
theorem c9_array_blob :
    safeJsonParse c9Blob = some c9Array ∧
    c9Array.isTruthyObject = true ∧
    c9Array.keys = ["0"] ∧
    c9Array.keys.any
      (fun k => !k.toList.isEmpty && k.toList.all Char.isDigit) = true ∧
    extractFromRawWorkflow c9Blob = some "a cat" ∧
    extractPositivePromptFromTextBlobs [c9Blob] =
      ⟨some "a cat", some "raw_workflow-json"⟩ :=
  ⟨rfl, rfl, rfl, rfl, rfl, rfl⟩

/-- C10: a 202-character non-JSON blob of literal escape sequences
survives the Phase C filters, and normalization collapses the winner to
the empty string: the selector returns a present but empty prompt. -/
theorem c10_fallback_empty_prompt :
    c10Blob.length = 202 ∧
    safeJsonParse c10Blob = none ∧
    jsTrim c10Blob = c10Blob ∧
    isPromptWrapperJson c10Blob = false ∧
    normalizePrompt c10Blob = "" ∧
    extractPositivePromptFromTextBlobs [c10Blob] =
      ⟨some "", some "fallback-long-text"⟩ :=
  ⟨rfl, rfl, rfl, rfl, rfl, rfl⟩

end PngPrompt
